import Mathlib

/-!
Verification of the stockscraper harvest engine (`scrape.go`).

The Go program is a callback-driven scraper: a bootstrap phase extracts a
csrf token and a stream id from the landing page and releases a two-party
barrier (`infos.wg`); `pollMessages` waits on the barrier and issues GET
requests; the `OnResponse` handler decodes a JSON `Stream` page, emits one
tab-separated record per message, schedules the continuation request with
cursor `max`, and releases the completion gate (`done`) on an empty page or
when the oldest message predates the configured boundary date; the
`OnError` handler implements the retry budget.

We shallow-embed the handler bodies as pure Lean functions over explicit
state, Go strings as `List Char` where character-level reasoning is needed
and `String` elsewhere, Go `time.Time` values as a `GoTime` record compared
lexicographically (the feed's fixed `-0000` zone makes `time.Time.Before`
agree with lexicographic comparison of the broken-down fields), and the
concurrent bootstrap/poll interaction as a labelled transition system.
-/

namespace StockScraper

/-- `leadsWith pat s` is true when `pat` is a leading segment of `s`
(helper for the model of Go `strings.Index`). -/
def leadsWith : List Char → List Char → Bool
  | [], _ => true
  | _ :: _, [] => false
  | p :: ps, c :: cs => p = c && leadsWith ps cs

/-- Model of `strings.Index(s, pat) != -1`: some position of `s` starts
with `pat`. -/
def containsSub (pat : List Char) : List Char → Bool
  | [] => leadsWith pat []
  | c :: cs => leadsWith pat (c :: cs) || containsSub pat cs

/-- Line 182 of `scrape.go`: `strings.Index(r.Headers.Get("Content-Type"), "json") == -1`
guards the early return; `containsJson ct` is the negation of that test. -/
def containsJson (ct : List Char) : Bool :=
  containsSub ("json".toList) ct

/-- Model of Go `strings.Replace(s, old, new, -1)` for a one-character
`old`: every occurrence of `c` is replaced by `rep`. -/
def replaceChar (c : Char) (rep : List Char) : List Char → List Char
  | [] => []
  | a :: as => if a = c then rep ++ replaceChar c rep as else a :: replaceChar c rep as

/-- Lines 214-215 of `scrape.go`: first every newline becomes the literal
two-character escape `\n`, then every tab becomes a space. -/
def sanitizeBody (s : List Char) : List Char :=
  replaceChar '\t' [' '] (replaceChar '\n' ['\\', 'n'] s)

/-- Per-character substitution stated by the spec: tab to space, newline to
the literal marker, everything else unchanged.  Used only to compare the
source's two-pass `sanitizeBody` against the spec's description. -/
def sanChar (a : Char) : List Char :=
  if a = '\t' then [' ']
  else if a = '\n' then ['\\', 'n']
  else [a]

/-- Broken-down Go `time.Time` in the feed's fixed `-0000` (UTC) zone. -/
structure GoTime where
  year : Nat
  month : Nat
  day : Nat
  hour : Nat
  minute : Nat
  second : Nat
deriving DecidableEq

/-- The Go zero `time.Time`: January 1, year 1, 00:00:00. -/
def goTimeZero : GoTime := ⟨1, 1, 1, 0, 0, 0⟩

/-- Model of `time.Time.Before` for two times in the same zone:
lexicographic comparison of the broken-down fields. -/
def GoTime.before (a b : GoTime) : Bool :=
  if a.year ≠ b.year then a.year < b.year
  else if a.month ≠ b.month then a.month < b.month
  else if a.day ≠ b.day then a.day < b.day
  else if a.hour ≠ b.hour then a.hour < b.hour
  else if a.minute ≠ b.minute then a.minute < b.minute
  else a.second < b.second

/-- Drop every leading occurrence of `c` (one side of Go `strings.Trim`). -/
def dropLeading (c : Char) : List Char → List Char
  | [] => []
  | x :: xs => if x = c then dropLeading c xs else x :: xs

/-- Line 28 of `scrape.go`: `strings.Trim(string(data), "\"")` removes all
leading and trailing double-quote characters. -/
def trimQuotes (s : List Char) : List Char :=
  ((dropLeading '"' ((dropLeading '"' s).reverse)).reverse)

/-- Numeric value of a decimal digit character, `none` otherwise. -/
def digitVal (c : Char) : Option Nat :=
  if c.isDigit then some (c.toNat - 48) else none

/-- Read exactly two decimal digits. -/
def parse2 : List Char → Option (Nat × List Char)
  | a :: b :: rest =>
    match digitVal a, digitVal b with
    | some x, some y => some (10 * x + y, rest)
    | _, _ => none
  | _ => none

/-- Read exactly four decimal digits. -/
def parse4 : List Char → Option (Nat × List Char)
  | a :: b :: c :: d :: rest =>
    match digitVal a, digitVal b, digitVal c, digitVal d with
    | some x, some y, some z, some w => some (1000 * x + 100 * y + 10 * z + w, rest)
    | _, _, _, _ => none
  | _ => none

/-- Consume one expected character. -/
def expectChar (c : Char) : List Char → Option (List Char)
  | x :: rest => if x = c then some rest else none
  | [] => none

/-- Split off the first `n` characters, failing when the input is shorter. -/
def takeN : Nat → List Char → Option (List Char × List Char)
  | 0, l => some ([], l)
  | _ + 1, [] => none
  | n + 1, c :: cs =>
    match takeN n cs with
    | some (xs, rest) => some (c :: xs, rest)
    | none => none

/-- The three-letter weekday abbreviations accepted by layout token `Mon`. -/
def weekdayOk (s : List Char) : Bool :=
  ["Mon", "Tue", "Wed", "Thu", "Fri", "Sat", "Sun"].any (fun w => w.toList = s)

/-- Month number of a three-letter month abbreviation (layout token `Jan`). -/
def monthIndex (s : List Char) : Option Nat :=
  (List.range 12).findSome? (fun i =>
    if (["Jan", "Feb", "Mar", "Apr", "May", "Jun",
         "Jul", "Aug", "Sep", "Oct", "Nov", "Dec"].get? i).any (fun m => m.toList = s)
    then some (i + 1) else none)

/-- Leading `Mon, ` of the layout: weekday abbreviation, comma, space. -/
def parseWeekdayComma (s : List Char) : Option (List Char) :=
  match takeN 3 s with
  | none => none
  | some (wd, s1) =>
    if weekdayOk wd then
      match expectChar ',' s1 with
      | none => none
      | some s2 => expectChar ' ' s2
    else none

/-- `02 Jan 2006 ` segment of the layout: day, month name, year. -/
def parseDayMonthYear (s : List Char) : Option (Nat × Nat × Nat × List Char) :=
  match parse2 s with
  | none => none
  | some (day, s1) =>
    match expectChar ' ' s1 with
    | none => none
    | some s2 =>
      match takeN 3 s2 with
      | none => none
      | some (mn, s3) =>
        match monthIndex mn, expectChar ' ' s3 with
        | some month, some s4 =>
          match parse4 s4 with
          | none => none
          | some (year, s5) =>
            match expectChar ' ' s5 with
            | none => none
            | some s6 => some (day, month, year, s6)
        | _, _ => none

/-- `15:04:05` segment of the layout. -/
def parseClock (s : List Char) : Option (Nat × Nat × Nat × List Char) :=
  match parse2 s with
  | none => none
  | some (hour, s1) =>
    match expectChar ':' s1 with
    | none => none
    | some s2 =>
      match parse2 s2 with
      | none => none
      | some (minute, s3) =>
        match expectChar ':' s3 with
        | none => none
        | some s4 =>
          match parse2 s4 with
          | none => none
          | some (second, s5) => some (hour, minute, second, s5)

/-- Trailing ` -0000` of the layout: the feed's fixed zone, ending the string. -/
def parseZone (s : List Char) : Bool :=
  s = " -0000".toList

/-- Model of Go `time.Parse` for the fixed layout
`Mon, 02 Jan 2006 15:04:05 -0000` used at line 33 of `scrape.go`: weekday
name, day, month name, year, clock and the feed's fixed `-0000` zone, with
the basic range validation `time.Parse` performs.  Any string not of this
shape yields `none` (a parse error in the source). -/
def timeParse (s : List Char) : Option GoTime :=
  match parseWeekdayComma s with
  | none => none
  | some s1 =>
    match parseDayMonthYear s1 with
    | none => none
    | some (day, month, year, s2) =>
      match parseClock s2 with
      | none => none
      | some (hour, minute, second, s3) =>
        if parseZone s3 ∧ 1 ≤ day ∧ day ≤ 31 ∧ hour ≤ 23 ∧ minute ≤ 59 ∧ second ≤ 59 then
          some ⟨year, month, day, hour, minute, second⟩
        else none

/-- Lines 27-40 of `scrape.go` (`Time.UnmarshalJSON`): trim quotes; an
explicit `null` is ignored and the receiver keeps its previous value (the
zero time for a fresh `Message`); otherwise the string is parsed with the
fixed layout and a parse failure is returned as an error, which
`json.Unmarshal` propagates. -/
def unmarshalTime (data : List Char) (t : GoTime) : Except String GoTime :=
  let strData := trimQuotes data
  if strData = "null".toList then Except.ok t
  else
    match timeParse strData with
    | some tm => Except.ok tm
    | none => Except.error "cannot parse time"

/-- The nested `Sentiment` struct of a `Message` (lines 47-50 of
`scrape.go`): a JSON `null` or missing object leaves both fields `""`. -/
structure SentimentInfo where
  cls : String
  name : String
deriving DecidableEq

/-- A stocktwits message (lines 43-52 of `scrape.go`).  The body is kept as
a character list for the sanitization proofs; `createdAt` is the decoded
`Time` field, which stays `goTimeZero` when the JSON carried `null` or no
`created_at` at all. -/
structure Message where
  id : Int
  body : List Char
  createdAt : GoTime
  sentiment : SentimentInfo
  totalLikes : Int
deriving DecidableEq

/-- One decoded response page (lines 56-61 of `scrape.go`).  `since` and
`max` are message ids; `max` is the chronologically oldest bound. -/
structure Stream where
  more : Bool
  since : Int
  max : Int
  messages : List Message
deriving DecidableEq

/-- Line 195-198 of `scrape.go`: when the origin supplies no bounds
(`data.Since == 0 || data.Max == 0`) the `Max` cursor is derived from the
last (oldest) message id; otherwise the supplied `Max` is used.  This value
is the `max` parameter of the continuation request (line 201). -/
def deriveMax (d : Stream) : Int :=
  if d.since = 0 ∨ d.max = 0 then
    match d.messages with
    | [] => 0
    | m0 :: rest => (rest.getLastD m0).id
  else d.max

/-- Lines 210-213 of `scrape.go`: the persisted sentiment defaults to
`"Neutral"` and is overwritten by the message's sentiment name when that
name is non-empty. -/
def sentimentLabel (name : String) : String :=
  if name ≠ "" then name else "Neutral"

/-- One emitted output row (lines 216-219 of `scrape.go`).  The source
renders `id` with `strconv.FormatInt(_, 10)`, `createdAt` with
`Format(time.RFC3339)` and `likes` with `strconv.Itoa`; these injective
textual renderings of external stdlib are not re-modelled, the fields keep
the rendered values. -/
structure Rec where
  id : Int
  createdAt : GoTime
  body : List Char
  sentiment : String
  likes : Int
deriving DecidableEq

/-- The record the emission loop writes for one message (lines 209-219 of
`scrape.go`): sanitized body, defaulted sentiment, id, timestamp, likes. -/
def recordOf (msg : Message) : Rec :=
  ⟨msg.id, msg.createdAt, sanitizeBody msg.body, sentimentLabel msg.sentiment.name, msg.totalLikes⟩

/-- Caller configuration reaching the response handler: the `-retry`
budget (line 99) and the boundary date parsed from `-date` (line 104). -/
structure Config where
  retry : Int
  maxDate : GoTime
deriving DecidableEq

/-- One received response as the handler sees it: its `Content-Type`
header and the result of `json.Unmarshal` on its body (`none` is an
unmarshal error — including a failing `Time.UnmarshalJSON`). -/
structure HandlerIn where
  contentType : List Char
  decoded : Option Stream
deriving DecidableEq

/-- Observable effects of one `OnResponse` invocation: the value stored
into `retryRemain` (line 180), the rows appended to the sink (lines
209-219), the `max` cursor of the continuation request scheduled at lines
200-206 (`none` when no continuation is scheduled), and whether the
invocation released the completion gate `done` (a net `done.Done()`:
line 192 for an empty page, line 225 for the time boundary). -/
structure Effects where
  retryRemainAfter : Int
  records : List Rec
  nextMax : Option Int
  release : Bool
deriving DecidableEq

/-- Result of one `OnResponse` invocation: `fatal` aborts the process
(`logger.Fatal`, line 188), otherwise the effects are produced. -/
inductive Outcome where
  | fatal
  | ok (effects : Effects)
deriving DecidableEq

/-- Lines 178-227 of `scrape.go`, the `OnResponse` handler: reset
`retryRemain` to the full budget; ignore any response whose content type
does not contain `"json"`; abort on an unmarshal error; an empty page
emits nothing, schedules nothing and releases the gate; a non-empty page
emits one record per message in page order, schedules the continuation
with the derived `max` cursor, and releases the gate exactly when the last
(oldest) message predates the boundary date.  (The `data.Since` derivation
of line 196 feeds only the log line and is omitted.) -/
def processResponse (cfg : Config) (r : HandlerIn) : Outcome :=
  if containsJson r.contentType = false then
    Outcome.ok ⟨cfg.retry, [], none, false⟩
  else
    match r.decoded with
    | none => Outcome.fatal
    | some data =>
      match data.messages with
      | [] => Outcome.ok ⟨cfg.retry, [], none, true⟩
      | m0 :: rest =>
        Outcome.ok ⟨cfg.retry, (m0 :: rest).map recordOf, some (deriveMax data),
          ((rest.getLastD m0).createdAt.before cfg.maxDate)⟩

/-- State of the top-level run around `done.Wait()` (line 240). -/
inductive RunResult where
  | terminated
  | fatalExit
  | pending
deriving DecidableEq

/-- The run as the completion gate sees it: responses are processed in
order; a fatal handler kills the process; the first gate release drops
`done` (initialised to 1 at line 129) to zero and `done.Wait()` returns;
with no release the run keeps polling. -/
def runHarvest (cfg : Config) : List HandlerIn → RunResult
  | [] => RunResult.pending
  | r :: rs =>
    match processResponse cfg r with
    | Outcome.fatal => RunResult.fatalExit
    | Outcome.ok e => if e.release then RunResult.terminated else runHarvest cfg rs

/-- The spec's termination condition for one received response: a JSON
page that decodes with zero messages, or whose oldest (last-listed)
message has a creation timestamp strictly before the boundary date. -/
def releaseCond (cfg : Config) (r : HandlerIn) : Prop :=
  containsJson r.contentType = true ∧
  ∃ d, r.decoded = some d ∧
    (d.messages = [] ∨
      ∃ m, d.messages.getLast? = some m ∧ m.createdAt.before cfg.maxDate = true)

/-- Opaque identity of a request, enough to state that the retry handler
resubmits the very same request (`res.Request.Retry()`, line 235). -/
structure Request where
  url : String
deriving DecidableEq

/-- A dummy request used when iterating the error handler. -/
def req0 : Request := ⟨""⟩

/-- Lines 229-236 of `scrape.go`, the `OnError` handler: with
`retryRemain == 0` the process dies (`logger.Fatal`, modelled as `none`);
otherwise `retryRemain` decrements and the identical failed request is
resubmitted. -/
def onError (retryRemain : Int) (req : Request) : Option (Int × Request) :=
  if retryRemain = 0 then none else some (retryRemain - 1, req)

/-- `retryRemain` after `k` consecutive transport failures starting from
`r`, `none` once a failure hits the fatal branch. -/
def failCount : Nat → Int → Option Int
  | 0, r => some r
  | k + 1, r =>
    match onError r req0 with
    | none => none
    | some (r2, _) => failCount k r2

/-- Lines 163-166 of `scrape.go`: the first request is the cursor-less
`streams/stream` URL, except that a configured `-id maxID` (non-zero)
switches it to the `streams/poll` URL carrying `max=maxID`. -/
def firstRequestCursor (maxID : Int) : Option Int :=
  if maxID ≠ 0 then some maxID else none

/-- The origin's contract for a page answering a continuation request with
cursor `m`: every returned message id and any supplied `max` bound lies
strictly below `m` (the feed only serves strictly older messages; cf. the
comment on `Stream`, lines 54-55). -/
def respWellFormed (m : Int) (d : Stream) : Prop :=
  (∀ msg ∈ d.messages, msg.id < m) ∧ (d.since ≠ 0 → d.max ≠ 0 → d.max < m)

instance respWellFormedDecidable (m : Int) (d : Stream) : Decidable (respWellFormed m d) := by
  unfold respWellFormed
  infer_instance

/-- Events of the bootstrap/poll interaction: the two `OnHTML` extractors
storing their fragment and calling `infos.wg.Done()` (lines 144-159), a
`pollMessages` invocation returning from `infos.wg.Wait()` (line 80), and
the `c.Request` GET it then issues (line 87). -/
inductive BEvent where
  | resolveToken
  | resolveId
  | barrierPass
  | httpGet
deriving DecidableEq

/-- Shared state of bootstrap and pollers: whether each bootstrap
fragment has been stored and its `wg.Done()` executed, how many
`pollMessages` calls are blocked in `wg.Wait()`, and how many have passed
the wait but not yet issued their GET. -/
structure Sys where
  tokenDone : Bool
  idDone : Bool
  waiting : Nat
  ready : Nat
deriving DecidableEq

/-- Startup state: `infos.wg` holds both units (`wg.Add(2)`, line 143) and
no poller exists yet. -/
def initSys : Sys := ⟨false, false, 0, 0⟩

/-- One scheduler step, labelled with the events it makes visible.
`pass` encodes `sync.WaitGroup` semantics: `wg.Wait()` returns only after
both `wg.Done()` calls, i.e. after both fragments are resolved.  `get`
encodes the body of `pollMessages`: the GET is issued only by an
invocation that already returned from its wait. -/
inductive Step : Sys → List BEvent → Sys → Prop where
  | spawn (s : Sys) :
      Step s [] ⟨s.tokenDone, s.idDone, s.waiting + 1, s.ready⟩
  | tok (s : Sys) :
      Step s [BEvent.resolveToken] ⟨true, s.idDone, s.waiting, s.ready⟩
  | idr (s : Sys) :
      Step s [BEvent.resolveId] ⟨s.tokenDone, true, s.waiting, s.ready⟩
  | pass (s : Sys) (w : Nat) :
      s.waiting = w + 1 → s.tokenDone = true → s.idDone = true →
      Step s [BEvent.barrierPass] ⟨s.tokenDone, s.idDone, w, s.ready + 1⟩
  | get (s : Sys) (k : Nat) :
      s.ready = k + 1 →
      Step s [BEvent.httpGet] ⟨s.tokenDone, s.idDone, s.waiting, k⟩

/-- Traces reachable from startup by interleaved scheduler steps. -/
inductive Reach : Sys → List BEvent → Prop where
  | init : Reach initSys []
  | step {s : Sys} {tr ev : List BEvent} {s2 : Sys} :
      Reach s tr → Step s ev s2 → Reach s2 (tr ++ ev)

/-- The five header fields written at line 125 of `scrape.go`. -/
def headerFields : List String := ["Id", "CreatedAt", "Body", "Sentiment", "Likes"]

/-- The bytes `csv.Writer` (with `Comma = '\t'`, line 115) produces for the
header row: tab-separated fields plus a newline. -/
def headerLine : String := String.intercalate "\t" headerFields ++ "\n"

/-- Lines 119-126 of `scrape.go`: the header row is written whenever the
destination file's current size is below 40 bytes. -/
def writesHeader (size : Int) : Bool := size < 40

/-! ### General lemmas about the embedded operations -/

theorem replaceChar_append (c : Char) (rep : List Char) (xs ys : List Char) :
    replaceChar c rep (xs ++ ys) = replaceChar c rep xs ++ replaceChar c rep ys := by
  induction xs with
  | nil => rfl
  | cons a as ih =>
    by_cases h : a = c
    · simp [replaceChar, h, ih]
    · simp [replaceChar, h, ih]

theorem sanitizeBody_flatMap (s : List Char) : s.flatMap sanChar = sanitizeBody s := by
  induction s with
  | nil => rfl
  | cons a as ih =>
    by_cases h1 : a = '\n'
    · subst h1
      simp [sanitizeBody, replaceChar, replaceChar_append, sanChar] at ih ⊢
      exact ih
    · by_cases h2 : a = '\t'
      · subst h2
        simp [sanitizeBody, replaceChar, sanChar, h1] at ih ⊢
        exact ih
      · simp [sanitizeBody, replaceChar, sanChar, h1, h2] at ih ⊢
        exact ih

/-! ### C8, C9, C10, C5 -/

/-- C8: body sanitization replaces every embedded tab with a space and
every embedded newline with the two-character literal `\n`, leaving all
other characters unchanged (the two `strings.Replace` passes of lines
214-215 equal the per-character substitution `sanChar`), and in particular
the body `"hello\tworld\nfoo"` is persisted as `"hello world\\nfoo"`. -/
theorem c8_body_sanitization :
    (∀ s : List Char, sanitizeBody s = s.flatMap sanChar) ∧
    sanitizeBody ("hello\tworld\nfoo".toList) = "hello world\\nfoo".toList :=
  ⟨fun s => (sanitizeBody_flatMap s).symm, rfl⟩

/-- C9: the persisted sentiment field is the neutral label `"Neutral"`
exactly when the message's sentiment name is empty, and the unchanged
sentiment name otherwise (lines 209-213 of `scrape.go`). -/
theorem c9_sentiment_default (msg : Message) :
    (msg.sentiment.name = "" → (recordOf msg).sentiment = "Neutral") ∧
    (msg.sentiment.name ≠ "" → (recordOf msg).sentiment = msg.sentiment.name) := by
  constructor <;> intro h <;> simp [recordOf, sentimentLabel, h]

/-- Witness for C9 at two concrete messages. -/
theorem c9_sentiment_default_witness :
    (recordOf ⟨1, [], goTimeZero, ⟨"", ""⟩, 0⟩).sentiment = "Neutral" ∧
    (recordOf ⟨2, [], goTimeZero, ⟨"", "Bullish"⟩, 3⟩).sentiment = "Bullish" :=
  ⟨(c9_sentiment_default _).1 rfl, (c9_sentiment_default _).2 (by simp)⟩

/-- C10: a response whose `Content-Type` does not contain `"json"` makes
the handler write no records, derive no cursor, schedule no continuation
and leave the completion gate untouched, while still storing the full
configured budget into `retryRemain` (the reset at line 180 precedes the
content-type classification at line 182). -/
theorem c10_nonjson_frame (cfg : Config) (r : HandlerIn)
    (h : containsJson r.contentType = false) :
    processResponse cfg r = Outcome.ok ⟨cfg.retry, [], none, false⟩ := by
  simp [processResponse, h]

/-- Witness for C10 at a concrete HTML response. -/
theorem c10_nonjson_frame_witness :
    containsJson ("text/html".toList) = false ∧
    processResponse ⟨5, ⟨2014, 11, 11, 0, 0, 0⟩⟩ ⟨"text/html".toList, none⟩ =
      Outcome.ok ⟨5, [], none, false⟩ :=
  ⟨rfl, c10_nonjson_frame _ _ rfl⟩

/-- C5 (code bug): the header row written by `csv.Writer` is 34 bytes, yet
the guard at line 124 writes the header whenever the destination is
smaller than 40 bytes — so a non-empty destination holding exactly one
header row (34 bytes, as left behind by a run that found no messages)
receives a second header on the next run, contradicting the claim and the
source's own comment `write head line if none`. -/
theorem c5_header_heuristic :
    headerLine.length = 34 ∧ writesHeader 34 = true ∧ writesHeader 0 = true ∧
    writesHeader 40 = false :=
  ⟨rfl, rfl, rfl, rfl⟩

/-! ### C3: retry accounting -/

theorem failCount_of_le (k : Nat) : ∀ r : Int, (k : Int) ≤ r → failCount k r = some (r - k) := by
  induction k with
  | zero => intro r _; simp [failCount]
  | succ k ih =>
    intro r hr
    have hne : r ≠ 0 := by omega
    have : failCount (k + 1) r = failCount k (r - 1) := by
      simp [failCount, onError, hne]
    rw [this, ih (r - 1) (by omega)]
    congr 1
    omega

theorem failCount_exhaust (k : Nat) : failCount (k + 1) (k : Int) = none := by
  induction k with
  | zero => simp [failCount, onError]
  | succ k ih =>
    have hne : ((k : Int) + 1) ≠ 0 := by omega
    have step : failCount (k + 2) ((k + 1 : Nat) : Int) = failCount (k + 1) (k : Int) := by
      push_cast
      simp [failCount, onError, hne]
    rw [step, ih]

theorem failCount_neg (k : Nat) : ∀ r : Int, r < 0 → failCount k r = some (r - k) := by
  induction k with
  | zero => intro r _; simp [failCount]
  | succ k ih =>
    intro r hr
    have hne : r ≠ 0 := by omega
    have : failCount (k + 1) r = failCount k (r - 1) := by
      simp [failCount, onError, hne]
    rw [this, ih (r - 1) (by omega)]
    congr 1
    omega

theorem processResponse_resets (cfg : Config) (r : HandlerIn) (e : Effects)
    (h : processResponse cfg r = Outcome.ok e) : e.retryRemainAfter = cfg.retry := by
  unfold processResponse at h
  split at h
  · injection h with h2
    subst h2
    rfl
  · split at h
    · simp at h
    · split at h
      · injection h with h2
        subst h2
        rfl
      · injection h with h2
        subst h2
        rfl

/-- C3: with budget `B ≥ 0`, `B` consecutive transport failures are
tolerated (the counter lands exactly on 0), the `B+1`-th consecutive
failure is fatal, a non-fatal failure decrements the counter and resubmits
the identical request unchanged, every successful response resets
`retryRemain` to the full budget, and the sentinel budget `-1` survives
any number of consecutive failures. -/
theorem c3_retry_budget (B : Nat) :
    failCount B (B : Int) = some 0 ∧
    failCount (B + 1) (B : Int) = none ∧
    (∀ (r : Int) (req : Request), r ≠ 0 → onError r req = some (r - 1, req)) ∧
    (∀ (cfg : Config) (r : HandlerIn) (e : Effects),
      processResponse cfg r = Outcome.ok e → e.retryRemainAfter = cfg.retry) ∧
    (∀ k : Nat, failCount k (-1) = some ((-1 : Int) - k)) := by
  refine ⟨?_, failCount_exhaust B, ?_, processResponse_resets, ?_⟩
  · rw [failCount_of_le B (B : Int) le_rfl]
    simp
  · intro r req hne
    simp [onError, hne]
  · intro k
    exact failCount_neg k (-1) (by omega)

/-- Witness for C3 at budget 2 and one concrete decrement. -/
theorem c3_retry_budget_witness :
    failCount 2 (2 : Int) = some 0 ∧ failCount 3 (2 : Int) = none ∧
    onError 2 req0 = some (1, req0) ∧ failCount 4 (-1) = some ((-1 : Int) - (4 : Nat)) :=
  ⟨(c3_retry_budget 2).1, (c3_retry_budget 2).2.1,
   (c3_retry_budget 2).2.2.1 2 req0 (by omega),
   (c3_retry_budget 2).2.2.2.2 4⟩

/-! ### C4: timestamp handling -/

/-- C4 counterexample: an explicit `null` creation timestamp is NOT fatal.
`Time.UnmarshalJSON` returns success leaving the zero time (lines 29-32 of
`scrape.go`), and a decoded page containing such a message is processed
normally: the handler emits the message instead of aborting. -/
theorem c4_null_not_fatal :
    unmarshalTime ("null".toList) goTimeZero = Except.ok goTimeZero ∧
    processResponse ⟨5, ⟨2014, 11, 11, 0, 0, 0⟩⟩
        ⟨"application/json".toList, some ⟨false, 0, 0, [⟨10, [], goTimeZero, ⟨"", ""⟩, 0⟩]⟩⟩ =
      Outcome.ok ⟨5, [recordOf ⟨10, [], goTimeZero, ⟨"", ""⟩, 0⟩], some 10, true⟩ :=
  ⟨rfl, rfl⟩

/-- C4 (amended): a creation timestamp that is present but fails to parse
in the fixed layout is fatal — `Time.UnmarshalJSON` returns the parse
error, `json.Unmarshal` propagates it, and the handler calls
`logger.Fatal` (lines 33-39 and 185-189) — while an explicit `null` (or an
absent field, which never reaches `UnmarshalJSON`) is silently ignored,
leaving the zero time. -/
theorem c4_parse_failure_fatal (data : List Char) (t : GoTime) :
    (trimQuotes data = "null".toList → unmarshalTime data t = Except.ok t) ∧
    (trimQuotes data ≠ "null".toList → timeParse (trimQuotes data) = none →
      unmarshalTime data t = Except.error "cannot parse time") ∧
    (∀ (cfg : Config) (r : HandlerIn), containsJson r.contentType = true →
      r.decoded = none → processResponse cfg r = Outcome.fatal) := by
  refine ⟨?_, ?_, ?_⟩
  · intro h
    simp [unmarshalTime, h]
  · intro h hp
    simp [unmarshalTime, hp]
    simpa using h
  · intro cfg r hct hd
    simp [processResponse, hct, hd]

/-- Witness for C4 (amended) at concrete inputs. -/
theorem c4_parse_failure_fatal_witness :
    unmarshalTime ("null".toList) ⟨2020, 1, 1, 0, 0, 0⟩ = Except.ok ⟨2020, 1, 1, 0, 0, 0⟩ ∧
    unmarshalTime ("\"bogus\"".toList) goTimeZero = Except.error "cannot parse time" ∧
    processResponse ⟨5, goTimeZero⟩ ⟨"application/json".toList, none⟩ = Outcome.fatal :=
  ⟨(c4_parse_failure_fatal ("null".toList) ⟨2020, 1, 1, 0, 0, 0⟩).1 rfl,
   (c4_parse_failure_fatal ("\"bogus\"".toList) goTimeZero).2.1 (by decide) rfl,
   (c4_parse_failure_fatal ("null".toList) goTimeZero).2.2 _ _ rfl rfl⟩

/-! ### C6: per-page emission -/

/-- C6: a decoded JSON page with `N > 0` messages makes the handler append
exactly `N` records, whose ids are the page's message ids in the page's
order (the emission loop of lines 207-222 is a per-message map with no
drops or reorders). -/
theorem c6_emission_faithful (cfg : Config) (r : HandlerIn) (d : Stream)
    (hct : containsJson r.contentType = true) (hd : r.decoded = some d)
    (hne : d.messages ≠ []) :
    ∃ e, processResponse cfg r = Outcome.ok e ∧
      e.records.length = d.messages.length ∧
      e.records.map Rec.id = d.messages.map Message.id := by
  cases hm : d.messages with
  | nil => exact absurd hm hne
  | cons m0 rest =>
    refine ⟨⟨cfg.retry, (m0 :: rest).map recordOf, some (deriveMax d),
      ((rest.getLastD m0).createdAt.before cfg.maxDate)⟩, ?_, ?_, ?_⟩
    · simp [processResponse, hct, hd, hm]
    · simp [hm]
    · dsimp only
      rw [List.map_map]
      rfl

/-- A default configuration: retry budget 5, boundary date 2014-11-11. -/
def cfgDef : Config := ⟨5, ⟨2014, 11, 11, 0, 0, 0⟩⟩

/-- A concrete two-message page and its JSON response, for witnesses. -/
def pageC6 : Stream :=
  ⟨true, 0, 0, [⟨20, [], ⟨2020, 1, 1, 0, 0, 0⟩, ⟨"", ""⟩, 0⟩,
                ⟨10, [], ⟨2020, 1, 1, 0, 0, 0⟩, ⟨"", ""⟩, 0⟩]⟩

/-- The response carrying `pageC6`. -/
def respC6 : HandlerIn := ⟨"application/json".toList, some pageC6⟩

/-- Witness for C6 at a concrete two-message page. -/
theorem c6_emission_faithful_witness :
    ∃ e, processResponse cfgDef respC6 = Outcome.ok e ∧
      e.records.length = pageC6.messages.length ∧
      e.records.map Rec.id = pageC6.messages.map Message.id :=
  c6_emission_faithful cfgDef respC6 pageC6 rfl rfl (by simp [pageC6])

/-! ### C1: termination condition -/

theorem getLast?_cons_getLastD {α : Type} (m0 : α) (rest : List α) :
    (m0 :: rest).getLast? = some (rest.getLastD m0) := by
  induction rest generalizing m0 with
  | nil => rfl
  | cons a as ih =>
    rw [List.getLastD_cons, ← ih a]
    rfl

theorem release_characterization (cfg : Config) (r : HandlerIn)
    (hnf : processResponse cfg r ≠ Outcome.fatal) :
    (∃ e, processResponse cfg r = Outcome.ok e ∧ e.release = true) ↔ releaseCond cfg r := by
  cases hct : containsJson r.contentType with
  | false => simp [processResponse, releaseCond, hct]
  | true =>
    cases hd : r.decoded with
    | none => exact absurd (by simp [processResponse, hct, hd]) hnf
    | some d =>
      cases hm : d.messages with
      | nil => simp [processResponse, releaseCond, hct, hd, hm]
      | cons m0 rest =>
        simp [processResponse, releaseCond, hct, hd, hm, getLast?_cons_getLastD]

/-- C1: assuming no received response is fatal (every JSON response
decodes), the run terminates successfully if and only if some received
response is a JSON page that decodes with zero messages or whose oldest
(last-listed) message has a creation timestamp strictly before the
boundary date; no other received page releases the completion gate. -/
theorem c1_termination_iff (cfg : Config) (rs : List HandlerIn)
    (h : ∀ r ∈ rs, processResponse cfg r ≠ Outcome.fatal) :
    runHarvest cfg rs = RunResult.terminated ↔ ∃ r ∈ rs, releaseCond cfg r := by
  induction rs with
  | nil => simp [runHarvest]
  | cons r rs ih =>
    have hr : processResponse cfg r ≠ Outcome.fatal := h r (List.mem_cons_self r rs)
    have hrest : ∀ x ∈ rs, processResponse cfg x ≠ Outcome.fatal :=
      fun x hx => h x (List.mem_cons_of_mem r hx)
    cases hpr : processResponse cfg r with
    | fatal => exact absurd hpr hr
    | ok e =>
      cases hrel : e.release with
      | true =>
        have hc : releaseCond cfg r :=
          (release_characterization cfg r hr).1 ⟨e, hpr, hrel⟩
        simp [runHarvest, hpr, hrel, List.exists_mem_cons_iff]
        exact Or.inl hc
      | false =>
        have hnc : ¬ releaseCond cfg r := by
          intro hc
          obtain ⟨e2, he2, hrel2⟩ := (release_characterization cfg r hr).2 hc
          rw [hpr] at he2
          injection he2 with he3
          rw [← he3] at hrel2
          rw [hrel] at hrel2
          exact Bool.false_ne_true hrel2
        simp [runHarvest, hpr, hrel, List.exists_mem_cons_iff, hnc, ih hrest]

/-- A response carrying an empty JSON page, for witnesses. -/
def respEmpty : HandlerIn := ⟨"application/json".toList, some ⟨false, 0, 0, []⟩⟩

/-- Witness for C1 on the one-response run consisting of an empty page. -/
theorem c1_termination_iff_witness :
    runHarvest cfgDef [respEmpty] = RunResult.terminated ↔
      ∃ r ∈ [respEmpty], releaseCond cfgDef r :=
  c1_termination_iff cfgDef [respEmpty] (by
    intro r hrm
    rw [List.mem_singleton] at hrm
    subst hrm
    rw [show processResponse cfgDef respEmpty = Outcome.ok ⟨5, [], none, true⟩ from rfl]
    simp)

/-! ### C7: cursor monotonicity -/

theorem getLastD_mem {α : Type} (m0 : α) (rest : List α) :
    rest.getLastD m0 ∈ m0 :: rest := by
  induction rest generalizing m0 with
  | nil => simp [List.getLastD]
  | cons a as ih =>
    rw [List.getLastD_cons]
    exact List.mem_cons_of_mem m0 (ih a)

theorem deriveMax_lt (m : Int) (d : Stream) (hne : d.messages ≠ [])
    (hwf : respWellFormed m d) : deriveMax d < m := by
  unfold deriveMax
  by_cases h0 : d.since = 0 ∨ d.max = 0
  · rw [if_pos h0]
    cases hm : d.messages with
    | nil => exact absurd hm hne
    | cons m0 rest =>
      exact hwf.1 (rest.getLastD m0) (hm ▸ getLastD_mem m0 rest)
  · rw [if_neg h0]
    push_neg at h0
    exact hwf.2 h0.1 h0.2

/-- C7 counterexample: (i) with a configured resume id (`-id 123`) the
very first request is the `streams/poll` URL carrying cursor `max=123`,
so the very first request is not cursor-less; (ii) the code trusts
origin-supplied bounds, so a page answering cursor 100 whose supplied
`max` is 999 makes the consecutive continuation cursors 100, 999 —
not strictly decreasing. -/
theorem c7_counterexample :
    firstRequestCursor 123 = some 123 ∧
    ¬ List.Chain' (fun a b => b < a)
        (([⟨true, 0, 0, [⟨200, [], goTimeZero, ⟨"", ""⟩, 0⟩, ⟨100, [], goTimeZero, ⟨"", ""⟩, 0⟩]⟩,
           ⟨true, 5, 999, [⟨50, [], goTimeZero, ⟨"", ""⟩, 0⟩]⟩] : List Stream).map deriveMax) := by
  refine ⟨rfl, ?_⟩
  intro h
  rw [show ([⟨true, 0, 0, [⟨200, [], goTimeZero, ⟨"", ""⟩, 0⟩, ⟨100, [], goTimeZero, ⟨"", ""⟩, 0⟩]⟩,
             ⟨true, 5, 999, [⟨50, [], goTimeZero, ⟨"", ""⟩, 0⟩]⟩] : List Stream).map deriveMax =
      [(100 : Int), 999] from rfl] at h
  have h2 := (List.chain'_cons.1 h).1
  omega

/-- C7 (amended): provided every continuation response is well formed with
respect to the cursor that requested it (its message ids and supplied
bounds lie strictly below that cursor — the origin's contract), the `max`
cursors of consecutive continuation requests strictly decrease; the very
first request carries no cursor exactly when no resume id is configured,
and carries the configured resume id otherwise. -/
theorem c7_cursor_monotone :
    (∀ ps : List Stream,
      List.Chain' (fun p q => q.messages ≠ [] ∧ respWellFormed (deriveMax p) q) ps →
      List.Chain' (fun a b => b < a) (ps.map deriveMax)) ∧
    firstRequestCursor 0 = none ∧
    (∀ m : Int, m ≠ 0 → firstRequestCursor m = some m) := by
  refine ⟨?_, rfl, ?_⟩
  · intro ps h
    rw [List.chain'_map]
    exact h.imp (fun p q hpq => deriveMax_lt (deriveMax p) q hpq.1 hpq.2)
  · intro m hm
    simp [firstRequestCursor, hm]

/-- Witness for C7 (amended) on a concrete well-formed two-page run. -/
theorem c7_cursor_monotone_witness :
    List.Chain' (fun a b => b < a)
      (([⟨true, 0, 0, [⟨200, [], goTimeZero, ⟨"", ""⟩, 0⟩, ⟨100, [], goTimeZero, ⟨"", ""⟩, 0⟩]⟩,
         ⟨true, 0, 0, [⟨90, [], goTimeZero, ⟨"", ""⟩, 0⟩, ⟨80, [], goTimeZero, ⟨"", ""⟩, 0⟩]⟩] :
        List Stream).map deriveMax) ∧
    firstRequestCursor 123 = some 123 :=
  ⟨c7_cursor_monotone.1 _ (by
      rw [List.chain'_cons]
      refine ⟨⟨by simp, ?_, ?_⟩, List.chain'_singleton _⟩
      · intro msg hmsg
        rw [show deriveMax ⟨true, 0, 0, [⟨200, [], goTimeZero, ⟨"", ""⟩, 0⟩,
            ⟨100, [], goTimeZero, ⟨"", ""⟩, 0⟩]⟩ = (100 : Int) from rfl]
        simp at hmsg
        rcases hmsg with h | h <;> subst h <;> decide
      · intro h5 _
        exact absurd rfl h5),
   c7_cursor_monotone.2.2 123 (by omega)⟩

/-! ### C2: barrier ordering -/

theorem append_eq_snoc {α : Type} {a b tr : List α} {x e : α}
    (h : a ++ x :: b = tr ++ [e]) :
    (a = tr ∧ x = e ∧ b = []) ∨ ∃ b2, b = b2 ++ [e] ∧ tr = a ++ x :: b2 := by
  rcases List.eq_nil_or_concat b with rfl | ⟨b2, y, rfl⟩
  · left
    have h2 := List.append_inj' h (by simp)
    have h3 : x = e := by
      have := h2.2
      simp at this
      exact this
    exact ⟨h2.1, h3, rfl⟩
  · right
    rw [List.concat_eq_append] at h
    have h2 : (a ++ x :: b2) ++ [y] = tr ++ [e] := by
      simpa using h
    have h3 := List.append_inj' h2 (by simp)
    have h4 : y = e := by
      have := h3.2
      simp at this
      exact this
    exact ⟨b2, by rw [List.concat_eq_append, h4], h3.1.symm⟩

/-- Safety invariant of the bootstrap/poll system: a set readiness flag is
witnessed by its resolve event in the trace, a poller past the barrier
implies both flags set and a barrier pass in the trace, and every GET in
the trace is preceded by both resolve events and a barrier pass. -/
def BarInv (s : Sys) (tr : List BEvent) : Prop :=
  (s.tokenDone = true → BEvent.resolveToken ∈ tr) ∧
  (s.idDone = true → BEvent.resolveId ∈ tr) ∧
  (0 < s.ready → s.tokenDone = true ∧ s.idDone = true ∧ BEvent.barrierPass ∈ tr) ∧
  (∀ a b, tr = a ++ BEvent.httpGet :: b →
    BEvent.resolveToken ∈ a ∧ BEvent.resolveId ∈ a ∧ BEvent.barrierPass ∈ a)

theorem inv4_snoc_ne {tr : List BEvent} {e : BEvent}
    (he : e ≠ BEvent.httpGet)
    (ih : ∀ a b, tr = a ++ BEvent.httpGet :: b →
      BEvent.resolveToken ∈ a ∧ BEvent.resolveId ∈ a ∧ BEvent.barrierPass ∈ a) :
    ∀ a b, tr ++ [e] = a ++ BEvent.httpGet :: b →
      BEvent.resolveToken ∈ a ∧ BEvent.resolveId ∈ a ∧ BEvent.barrierPass ∈ a := by
  intro a b h
  rcases append_eq_snoc h.symm with ⟨rfl, hx, rfl⟩ | ⟨b2, rfl, rfl⟩
  · exact absurd hx.symm he
  · exact ih a b2 rfl

theorem inv4_snoc_get {tr : List BEvent}
    (htok : BEvent.resolveToken ∈ tr) (hid : BEvent.resolveId ∈ tr)
    (hbar : BEvent.barrierPass ∈ tr)
    (ih : ∀ a b, tr = a ++ BEvent.httpGet :: b →
      BEvent.resolveToken ∈ a ∧ BEvent.resolveId ∈ a ∧ BEvent.barrierPass ∈ a) :
    ∀ a b, tr ++ [BEvent.httpGet] = a ++ BEvent.httpGet :: b →
      BEvent.resolveToken ∈ a ∧ BEvent.resolveId ∈ a ∧ BEvent.barrierPass ∈ a := by
  intro a b h
  rcases append_eq_snoc h.symm with ⟨rfl, _, rfl⟩ | ⟨b2, rfl, rfl⟩
  · exact ⟨htok, hid, hbar⟩
  · exact ih a b2 rfl

theorem reach_inv {s : Sys} {tr : List BEvent} (h : Reach s tr) : BarInv s tr := by
  induction h with
  | init =>
    refine ⟨?_, ?_, ?_, ?_⟩
    · intro hc; cases hc
    · intro hc; cases hc
    · intro hc; cases hc
    · intro a b hab
      exact absurd hab.symm (List.append_ne_nil_of_right_ne_nil a (by simp))
  | step hr hs ih =>
    obtain ⟨ih1, ih2, ih3, ih4⟩ := ih
    cases hs with
    | spawn =>
      rw [List.append_nil]
      exact ⟨ih1, ih2, ih3, ih4⟩
    | tok =>
      refine ⟨?_, ?_, ?_, ?_⟩
      · intro _; exact List.mem_append_right _ (by simp)
      · intro hc; exact List.mem_append_left _ (ih2 hc)
      · intro hc
        obtain ⟨_, h2, h3⟩ := ih3 hc
        exact ⟨rfl, h2, List.mem_append_left _ h3⟩
      · exact inv4_snoc_ne (by simp) ih4
    | idr =>
      refine ⟨?_, ?_, ?_, ?_⟩
      · intro hc; exact List.mem_append_left _ (ih1 hc)
      · intro _; exact List.mem_append_right _ (by simp)
      · intro hc
        obtain ⟨h1, _, h3⟩ := ih3 hc
        exact ⟨h1, rfl, List.mem_append_left _ h3⟩
      · exact inv4_snoc_ne (by simp) ih4
    | pass w hw htok hid =>
      refine ⟨?_, ?_, ?_, ?_⟩
      · intro _; exact List.mem_append_left _ (ih1 htok)
      · intro _; exact List.mem_append_left _ (ih2 hid)
      · intro _; exact ⟨htok, hid, List.mem_append_right _ (by simp)⟩
      · exact inv4_snoc_ne (by simp) ih4
    | get k hk =>
      obtain ⟨h1, h2, h3⟩ := ih3 (by omega)
      refine ⟨?_, ?_, ?_, ?_⟩
      · intro hc; exact List.mem_append_left _ (ih1 hc)
      · intro hc; exact List.mem_append_left _ (ih2 hc)
      · intro _
        exact ⟨h1, h2, List.mem_append_left _ h3⟩
      · exact inv4_snoc_get (ih1 h1) (ih2 h2) h3 ih4

/-- C2: in every reachable interleaving, any HTTP GET issued by
`pollMessages` is preceded in the trace by the resolution of both
bootstrap fragments (token and stream id) and by a completed barrier wait:
`pollMessages` finishes `wg.Wait()` — which returns only after both
`wg.Done()` calls — before `c.Request` runs, for the initial request and
every continuation. -/
theorem c2_barrier_order {s : Sys} {tr a b : List BEvent}
    (hr : Reach s tr) (hd : tr = a ++ BEvent.httpGet :: b) :
    BEvent.resolveToken ∈ a ∧ BEvent.resolveId ∈ a ∧ BEvent.barrierPass ∈ a :=
  (reach_inv hr).2.2.2 a b hd

/-- Witness for C2 on the concrete schedule spawn, token, id, barrier
pass, GET. -/
theorem c2_barrier_order_witness :
    BEvent.resolveToken ∈ [BEvent.resolveToken, BEvent.resolveId, BEvent.barrierPass] ∧
    BEvent.resolveId ∈ [BEvent.resolveToken, BEvent.resolveId, BEvent.barrierPass] ∧
    BEvent.barrierPass ∈ [BEvent.resolveToken, BEvent.resolveId, BEvent.barrierPass] :=
  c2_barrier_order
    (Reach.step
      (Reach.step
        (Reach.step
          (Reach.step
            (Reach.step Reach.init (Step.spawn initSys))
            (Step.tok ⟨false, false, 1, 0⟩))
          (Step.idr ⟨true, false, 1, 0⟩))
        (Step.pass ⟨true, true, 1, 0⟩ 0 rfl rfl rfl))
      (Step.get ⟨true, true, 0, 1⟩ 0 rfl))
    rfl

end StockScraper
